import Mathlib

/-!
Verification development for the Gaussian bond-scan notebook
(`geometry_scanner.ipynb`).  The Python cells are shallowly embedded:

* text files become `List String` (one element per line, trailing
  newline characters kept where they matter to the source logic);
* Python `str.strip`, `str.split`, `str.startswith`, the `in`
  substring test and single-character `str.replace` are re-implemented
  on `List Char`;
* Python floats are abstracted to exact rationals (`ℚ`): the syntactic
  acceptance of `float(...)` / `int(...)` literals is modelled
  faithfully on the character level (without `inf`/`nan`/underscore
  forms, which cannot occur in the inputs the notebook feeds them),
  while the numeric value is the exact decimal value;
* a Python function that can raise becomes `Except`/`Option`.
-/

namespace GaussianBondScan

/-! ## Character and string primitives -/

/-- Whitespace test used by Python `str.strip` and `str.split`. -/
def isWS (c : Char) : Bool := c.isWhitespace

/-- Drop leading and trailing whitespace of a character list
(Python `str.strip()`). -/
def trimChars (l : List Char) : List Char :=
  ((l.dropWhile isWS).reverse.dropWhile isWS).reverse

/-- Python `line.strip()`. -/
def pyStrip (s : String) : String := String.mk (trimChars s.data)

/-- List starts-with test, written out to keep kernel evaluation easy. -/
def isPre : List Char → List Char → Bool
  | [], _ => true
  | _ :: _, [] => false
  | c :: p, d :: l => c == d && isPre p l

/-- Python `s.startswith(p)`. -/
def pyStartsWith (s p : String) : Bool := isPre p.data s.data

/-- Substring occurrence on character lists. -/
def listContains (pat : List Char) : List Char → Bool
  | [] => pat.isEmpty
  | c :: rest => isPre pat (c :: rest) || listContains pat rest

/-- Python `pat in s`. -/
def pyIn (pat s : String) : Bool := listContains pat.data s.data

/-- Helper of `pySplit`: accumulates the current token (reversed). -/
def splitWsAux : List Char → List Char → List String
  | [], acc => if acc.isEmpty then [] else [String.mk acc.reverse]
  | c :: rest, acc =>
    if isWS c then
      if acc.isEmpty then splitWsAux rest []
      else String.mk acc.reverse :: splitWsAux rest []
    else splitWsAux rest (c :: acc)

/-- Python `line.split()`: split on whitespace runs, no empty fields. -/
def pySplit (s : String) : List String := splitWsAux s.data []

/-- Replace every occurrence of the character `c` by the character list
`rep` (Python single-character `str.replace`). -/
def replaceCharWith (c : Char) (rep : List Char) (l : List Char) : List Char :=
  (l.map (fun x => if x = c then rep else [x])).flatten

/-- Numeric value of a digit string. -/
def natOfDigits (ds : List Char) : ℕ :=
  ds.foldl (fun a c => 10 * a + (c.toNat - 48)) 0

/-- Split a leading digit run off a character list. -/
def takeDigits (l : List Char) : List Char × List Char :=
  (l.takeWhile Char.isDigit, l.dropWhile Char.isDigit)

/-- Python `float(s)` on character lists: optional sign, decimal
mantissa, optional `e`/`E` exponent; `none` models the `ValueError`
raise.  (`inf`, `nan` and underscore grouping are not modelled.) -/
def pyFloatChars (cs0 : List Char) : Option ℚ :=
  let cs := trimChars cs0
  let sgn : ℚ × List Char :=
    match cs with
    | '+' :: r => (1, r)
    | '-' :: r => (-1, r)
    | r => (1, r)
  let (ip, cs1) := takeDigits sgn.2
  let frac : List Char × List Char :=
    match cs1 with
    | '.' :: r => takeDigits r
    | r => ([], r)
  let fp := frac.1
  let cs2 := frac.2
  if ip.isEmpty && fp.isEmpty then none
  else
    let mant : ℚ := (natOfDigits ip : ℚ) + (natOfDigits fp : ℚ) / (10 : ℚ) ^ fp.length
    match cs2 with
    | [] => some (sgn.1 * mant)
    | e :: r =>
      if e = 'e' || e = 'E' then
        let esgn : ℤ × List Char :=
          match r with
          | '+' :: r2 => (1, r2)
          | '-' :: r2 => (-1, r2)
          | r2 => (1, r2)
        let (ed, r3) := takeDigits esgn.2
        if ed.isEmpty || !r3.isEmpty then none
        else some (sgn.1 * mant * (10 : ℚ) ^ (esgn.1 * (natOfDigits ed : ℤ)))
      else none

/-- Python `float(s)` on strings. -/
def pyFloat (s : String) : Option ℚ := pyFloatChars s.data

/-- Python `int(s)`: optional sign, digit run, nothing else
(`none` models the `ValueError` raise). -/
def pyInt (s : String) : Option ℤ :=
  let cs := trimChars s.data
  let sgn : ℤ × List Char :=
    match cs with
    | '+' :: r => (1, r)
    | '-' :: r => (-1, r)
    | r => (1, r)
  if !sgn.2.isEmpty && sgn.2.all Char.isDigit then
    some (sgn.1 * (natOfDigits sgn.2 : ℤ))
  else none

/-- Left-pad the decimal rendering of `n` with zeros to width `w`. -/
def padZeros (w : ℕ) (n : ℕ) : String :=
  let s := toString n
  String.mk (List.replicate (w - s.length) '0') ++ s

/-- Python `f"{q:.8f}"`, abstracted to rationals: round `q·10^8` to the
nearest integer and print it with eight digits after the point. -/
def formatFixed8 (q : ℚ) : String :=
  let n : ℤ := round (q * 100000000)
  let sign := if n < 0 then "-" else ""
  let a := n.natAbs
  sign ++ toString (a / 100000000) ++ "." ++ padZeros 8 (a % 100000000)

/-- Join strings with a newline between consecutive elements
(Python `"\n".join`). -/
def joinNl : List String → String
  | [] => ""
  | [x] => x
  | x :: y :: rest => x ++ "\n" ++ joinNl (y :: rest)

/-- Index of the first list element satisfying `p` (the
`for i, line in enumerate(lines)` with `break` pattern). -/
def firstIdxWhere (p : α → Bool) : List α → Option ℕ
  | [] => none
  | x :: xs => if p x then some 0 else (firstIdxWhere p xs).map (· + 1)

/-- A line whose stripped text is empty (Python `line.strip() == ""`). -/
def isBlankLine (l : String) : Bool := (pyStrip l).isEmpty

/-! ## `read_basis_set` (cell 12) -/

/-- Transcription of `read_basis_set`: pop blank lines from the front,
pop blank lines from the back, then insert one `"\n"` at each end. -/
def read_basis_set (basisset : List String) : List String :=
  let b1 := basisset.dropWhile isBlankLine
  let b2 := (b1.reverse.dropWhile isBlankLine).reverse
  "\n" :: (b2 ++ ["\n"])

/-! ## `validate_parameters` and its calling cell (cell 6) -/

/-- Transcription of `validate_parameters`; the `Except.error` payload
is the `ValueError` message. -/
def validate_parameters (lower_bound upper_bound : ℚ)
    (scan_step_number : ℤ) : Except String Unit :=
  if lower_bound ≤ 0 then .error "lower_bound must be positive"
  else if upper_bound ≤ 0 then .error "upper_bound must be positive"
  else if upper_bound ≤ lower_bound then
    .error "upper_bound must be larger than lower_bound"
  else if scan_step_number ≤ 0 then
    .error "scan_step_number must be a positive integer"
  else .ok ()

/-- The calling cell: `try: validate_parameters(...) except ValueError
as e: print(...)`.  The cell itself never raises; its result is the
message printed, if any, and control always continues to the next
cell. -/
def validationCell (lower_bound upper_bound : ℚ)
    (scan_step_number : ℤ) : Option String :=
  match validate_parameters lower_bound upper_bound scan_step_number with
  | .ok _ => none
  | .error e => some ("Parameter validation error: " ++ e)

/-! ## Termination check cells (cells 18 and 30) -/

/-- The fixed success marker of the engine log. -/
def successMarker : String := "Normal termination"

/-- Transcription of the termination-check condition
`lines and lines[-1].strip().startswith("Normal termination")`;
`false` means the cell raises `RuntimeError`. -/
def checkTermination (lines : List String) : Bool :=
  !lines.isEmpty && pyStartsWith (pyStrip (lines.getLastD "")) successMarker

/-- Last line of the log whose stripped text is non-empty
(the notion used by the specification's wording, not by the code). -/
def lastNonblank (lines : List String) : Option String :=
  (lines.filter (fun l => !isBlankLine l)).getLast?

/-- The success test as the specification words it: the last non-blank
line begins with the marker. -/
def claimTerminationSuccess (lines : List String) : Bool :=
  match lastNonblank lines with
  | some l => pyStartsWith (pyStrip l) successMarker
  | none => false

/-! ## `extract_optimized_structure` (cell 20) -/

/-- Marker phrase announcing the final structure section. -/
def zmatrixMarker : String := "Final structure in terms of initial Z-matrix:"

/-- Python `re.match(r'^\d', s)` as a Boolean on the stripped text. -/
def startsWithDigit (s : String) : Bool :=
  match s.data with
  | c :: _ => c.isDigit
  | [] => false

/-- Per-line rewriting of the copied geometry block: a line containing
`"Variables:"` becomes a blank line; otherwise each comma and each `=`
is replaced by three spaces. -/
def transformZLine (line : String) : String :=
  if pyIn "Variables:" line then "\n"
  else
    let m1 := replaceCharWith ',' "   ".data line.data
    String.mk (replaceCharWith '=' "   ".data m1)

/-- The copy loop of `extract_optimized_structure`: stop at the first
line whose stripped text begins with a digit. -/
def extractGeomLoop : List String → List String
  | [] => []
  | l :: rest =>
    if startsWithDigit (pyStrip l) then []
    else transformZLine l :: extractGeomLoop rest

/-- Transcription of `extract_optimized_structure`; the `.error` case
is the `RuntimeError` raise. -/
def extract_optimized_structure (lines : List String) :
    Except String (List String) :=
  match firstIdxWhere (fun l => pyIn zmatrixMarker l) lines with
  | none => .error "Error: Could not find the start of the geometry block."
  | some i => .ok (extractGeomLoop (lines.drop (i + 1)))

/-- Cell 24: the scan deck is the header, the charge/multiplicity line,
the extracted structure and the basis set; a failing extraction aborts
before the deck is composed. -/
def composeScanDeck (header : List String) (chargeLine : String)
    (basisset : List String) (optLog : List String) :
    Except String (List String) :=
  match extract_optimized_structure optLog with
  | .error e => .error e
  | .ok geom => .ok (header ++ (chargeLine :: geom) ++ basisset)

/-! ## `update_scan_bond` (cell 26) -/

/-- Error outcomes of `update_scan_bond`: the explicit `ValueError`
raise of the `for`/`else`, and the uncaught `ValueError` of
`float(parts[1])` on a non-numeric token. -/
inductive UpdateError where
  | coordNotFound : UpdateError
  | floatParseError : UpdateError
deriving DecidableEq

/-- The matching condition of the loop in `update_scan_bond`:
`line.strip().startswith(scan_bond)` and `len(line.split()) == 2`. -/
def scanBondMatch (scan_bond line : String) : Bool :=
  pyStartsWith (pyStrip line) scan_bond && (pySplit line).length == 2

/-- The rewritten scan directive line: one space, the coordinate name,
three spaces, the minimum distance with eight decimals, three spaces,
the step count, three spaces, the step size, newline.  The step size is
rendered by the exact-rational `toString`, abstracting the float
rendering of Python. -/
def mkScanLine (scan_bond : String) (minimum_dist : ℚ)
    (scan_step_number : ℕ) (step_size : ℚ) : String :=
  " " ++ scan_bond ++ "   " ++ formatFixed8 minimum_dist ++ "   " ++
    toString scan_step_number ++ "   " ++ toString step_size ++ "\n"

/-- Transcription of `update_scan_bond`: find the first line matching
`scanBondMatch`, parse its second token as the equilibrium distance,
compute minimum distance, maximum distance and step size, and replace
that one line; returns the rewritten deck together with the
`(minimum_dist, step_size)` pair that the code stores in globals. -/
def update_scan_bond (scan_bond : String) (lower_bound upper_bound : ℚ)
    (scan_step_number : ℕ) :
    List String → Except UpdateError (List String × ℚ × ℚ)
  | [] => .error .coordNotFound
  | line :: rest =>
    if scanBondMatch scan_bond line then
      match pyFloat ((pySplit line).getD 1 "") with
      | some equilibrium_dist =>
        let minimum_dist := equilibrium_dist * lower_bound
        let maximum_dist := equilibrium_dist * upper_bound
        let step_size := (maximum_dist - minimum_dist) / (scan_step_number : ℚ)
        .ok (mkScanLine scan_bond minimum_dist scan_step_number step_size :: rest,
          minimum_dist, step_size)
      | none => .error .floatParseError
    else
      match update_scan_bond scan_bond lower_bound upper_bound scan_step_number rest with
      | .ok (ls, m, s) => .ok (line :: ls, m, s)
      | .error e => .error e

/-- The matching condition as claim C3 words it: the stripped line
starts with the coordinate name followed by a space, with exactly one
numeric token after the name. -/
def claimC3Match (scan_bond line : String) : Bool :=
  pyStartsWith (pyStrip line) (scan_bond ++ " ") &&
    ((pySplit line).length == 2 && (pyFloat ((pySplit line).getD 1 "")).isSome)

/-! ## `extract_energies` and `write_energies_to_file` (cell 34) -/

/-- Conversion constant `hartree_to_eV = 27.211407953`. -/
def hartree_to_eV : ℚ := 27211407953 / 1000000000

/-- Character class `[-\d\.D]` of the energy regex. -/
def classX (c : Char) : Bool := c == '-' || c.isDigit || c == '.' || c == 'D'

/-- One backtracking attempt of the group `([-\d\.D]+[+-]\d+)`:
consume `k` characters of the maximal `[-\d\.D]` run, then require a
sign character and a non-empty digit run. -/
def tryPayloadAt (run rest : List Char) (k : ℕ) : Option (List Char) :=
  match run.drop k ++ rest with
  | s :: t =>
    if s == '+' || s == '-' then
      let ds := t.takeWhile Char.isDigit
      if ds.isEmpty then none else some (run.take k ++ s :: ds)
    else none
  | [] => none

/-- Greedy-with-backtracking search over the split point `k`, longest
first, exactly as the regex engine backtracks the `+` quantifier. -/
def tryPayload (run rest : List Char) : ℕ → Option (List Char)
  | 0 => none
  | k + 1 =>
    match tryPayloadAt run rest (k + 1) with
    | some p => some p
    | none => tryPayload run rest k

/-- Match the capture group `([-\d\.D]+[+-]\d+)` at the current
position. -/
def matchPayload (cs : List Char) : Option (List Char) :=
  let run := cs.takeWhile classX
  tryPayload run (cs.drop run.length) run.length

/-- Match the whole pattern `EUMP2\s*=\s*([-\d\.D]+[+-]\d+)` anchored
at the current position, returning the capture group. -/
def matchEUMP2At (cs : List Char) : Option (List Char) :=
  if isPre "EUMP2".data cs then
    match (cs.drop 5).dropWhile isWS with
    | '=' :: cs2 => matchPayload (cs2.dropWhile isWS)
    | _ => none
  else none

/-- Python `re.search` for the energy pattern: leftmost match wins. -/
def reSearchEUMP2 : List Char → Option (List Char)
  | [] => none
  | c :: rest =>
    match matchEUMP2At (c :: rest) with
    | some p => some p
    | none => reSearchEUMP2 rest

/-- The substitution of E for D applied to the captured payload before
float parsing (Fortran exponent notation). -/
def dToE (c : Char) : Char := if c = 'D' then 'E' else c

/-- Transcription of `extract_energies`: scan every line for `EUMP2`,
extract the payload with the regex, convert Fortran `D` exponents, and
parse; a parse failure is printed and the point skipped.  The first
component is the energy list (in eV), the second the list of printed
error messages, both in log order. -/
def extract_energies (lines : List String) : List ℚ × List String :=
  match lines with
  | [] => ([], [])
  | l :: rest =>
    let acc := extract_energies rest
    if pyIn "EUMP2" l then
      match reSearchEUMP2 l.data with
      | some payload =>
        let energy := String.mk (payload.map dToE)
        match pyFloat energy with
        | some v => (v * hartree_to_eV :: acc.1, acc.2)
        | none => (acc.1, ("Error converting energy: " ++ energy) :: acc.2)
      | none => acc
    else acc

/-- Declarative per-line reading of the energy extraction: the energy
contributed by one log line, if any. -/
def energyOfLine (l : String) : Option ℚ :=
  if pyIn "EUMP2" l then
    (reSearchEUMP2 l.data).bind fun p =>
      (pyFloat (String.mk (p.map dToE))).map (· * hartree_to_eV)
  else none

/-- Declarative per-line reading of the logged parse failures. -/
def errorOfLine (l : String) : Option String :=
  if pyIn "EUMP2" l then
    (reSearchEUMP2 l.data).bind fun p =>
      match pyFloat (String.mk (p.map dToE)) with
      | some _ => none
      | none => some ("Error converting energy: " ++ String.mk (p.map dToE))
  else none

/-- Transcription of `write_energies_to_file`: the rows of the output
file, each row one distance/energy line, obtained by zipping the
distance ladder `minimum_dist + i*step_size` for
`i in range(scan_step_number + 1)` with the energy list. -/
def write_energies_to_file (energies : List ℚ) (minimum_dist step_size : ℚ)
    (scan_step_number : ℕ) : List (ℚ × ℚ) :=
  let distances :=
    (List.range (scan_step_number + 1)).map
      fun i : ℕ => minimum_dist + (i : ℚ) * step_size
  distances.zip energies

/-! ## `extract_data_from_log` (cell 32) -/

/-- The periodic-table dictionary of cell 32. -/
def periodic_table : List (ℤ × String) :=
  [(1, "H"), (2, "He"), (3, "Li"), (4, "Be"), (5, "B"), (6, "C"), (7, "N"),
   (8, "O"), (9, "F"), (10, "Ne"), (11, "Na"), (12, "Mg"), (13, "Al"),
   (14, "Si"), (15, "P"), (16, "S"), (17, "Cl"), (18, "Ar"), (19, "K"),
   (20, "Ca"), (21, "Sc"), (22, "Ti"), (23, "V"), (24, "Cr"), (25, "Mn"),
   (26, "Fe"), (27, "Co"), (28, "Ni"), (29, "Cu"), (30, "Zn"), (31, "Ga"),
   (32, "Ge"), (33, "As"), (34, "Se"), (35, "Br"), (36, "Kr"), (37, "Rb"),
   (38, "Sr"), (39, "Y"), (40, "Zr"), (41, "Nb"), (42, "Mo"), (43, "Tc"),
   (44, "Ru"), (45, "Rh"), (46, "Pd"), (47, "Ag"), (48, "Cd"), (49, "In"),
   (50, "Sn"), (51, "Sb"), (52, "Te"), (53, "I"), (54, "Xe"), (55, "Cs"),
   (56, "Ba"), (57, "La"), (58, "Ce"), (59, "Pr"), (60, "Nd"), (61, "Pm"),
   (62, "Sm"), (63, "Eu"), (64, "Gd"), (65, "Tb"), (66, "Dy"), (67, "Ho"),
   (68, "Er"), (69, "Tm"), (70, "Yb"), (71, "Lu"), (72, "Hf"), (73, "Ta"),
   (74, "W"), (75, "Re"), (76, "Os"), (77, "Ir"), (78, "Pt"), (79, "Au"),
   (80, "Hg"), (81, "Tl"), (82, "Pb"), (83, "Bi"), (84, "Po"), (85, "At"),
   (86, "Rn"), (87, "Fr"), (88, "Ra"), (89, "Ac"), (90, "Th"), (91, "Pa"),
   (92, "U"), (93, "Np"), (94, "Pu"), (95, "Am"), (96, "Cm"), (97, "Bk"),
   (98, "Cf"), (99, "Es"), (100, "Fm"), (101, "Md"), (102, "No"),
   (103, "Lr"), (104, "Rf"), (105, "Db"), (106, "Sg"), (107, "Bh"),
   (108, "Hs"), (109, "Mt"), (110, "Ds"), (111, "Rg"), (112, "Cn"),
   (113, "Nh"), (114, "Fl"), (115, "Mc"), (116, "Lv"), (117, "Ts"),
   (118, "Og")]

/-- Python `periodic_table.get(atomic_number, "X")`. -/
def ptLookup (n : ℤ) : String :=
  match periodic_table.lookup n with
  | some s => s
  | none => "X"

/-- Marker of an orientation table in the log. -/
def orientationMarker : String := "Standard orientation:"

/-- Inner `while` loop of `extract_data_from_log`: walk data lines
until one whose stripped text starts with `-`; a line with at least six
fields contributes an atom record, shorter lines are skipped; a
non-integer atomic-number field is the uncaught `ValueError` of
`int(parts[1])`. -/
def blockLoop : List String → Except String (List String)
  | [] => .ok []
  | l :: rest =>
    if pyStartsWith (pyStrip l) "-" then .ok []
    else
      let parts := pySplit l
      if 6 ≤ parts.length then
        match pyInt (parts.getD 1 "") with
        | none => .error "invalid literal for int()"
        | some an =>
          match blockLoop rest with
          | .ok b =>
            .ok ((ptLookup an ++ " " ++ parts.getD 3 "" ++ " " ++
              parts.getD 4 "" ++ " " ++ parts.getD 5 "") :: b)
          | .error e => .error e
      else blockLoop rest

/-- Indices of the lines containing the orientation marker, in order
(the outer `for i, line in enumerate(lines)` filter). -/
def markerIndices (lines : List String) : List ℕ :=
  (List.range lines.length).filter fun i => pyIn orientationMarker (lines.getD i "")

/-- Collect the block of each marker (data starts five lines below the
marker); only non-empty blocks are appended to `all_blocks`. -/
def gatherBlocks (lines : List String) :
    List ℕ → Except String (List (List String))
  | [] => .ok []
  | i :: is =>
    match blockLoop (lines.drop (i + 5)) with
    | .error e => .error e
    | .ok bd =>
      match gatherBlocks lines is with
      | .error e => .error e
      | .ok bs => .ok (if bd.isEmpty then bs else bd :: bs)

/-- Transcription of `extract_data_from_log`, producing `all_blocks`
(each block the list of its atom lines). -/
def extract_data_from_log (lines : List String) :
    Except String (List (List String)) :=
  gatherBlocks lines (markerIndices lines)

/-- Serialization of one trajectory block: the atom count line, a
blank line, the newline-joined atom records, plus the trailing newline
added by the write loop. -/
def serializeBlock (b : List String) : String :=
  toString b.length ++ "\n\n" ++ joinNl b ++ "\n"

/-! ## Helper lemmas -/

/-- Boolean success test for `Except`. -/
def exceptOk {ε α : Type _} : Except ε α → Bool
  | .ok _ => true
  | .error _ => false

theorem firstIdxWhere_eq_none {α : Type _} {p : α → Bool} :
    ∀ {l : List α}, (∀ x ∈ l, p x = false) → firstIdxWhere p l = none := by
  intro l
  induction l with
  | nil => intro _; rfl
  | cons a t ih =>
    intro h
    unfold firstIdxWhere
    rw [h a (List.mem_cons_self a t), ih fun x hx => h x (List.mem_cons_of_mem a hx)]
    rfl

theorem dropWhile_head?_not {α : Type _} {p : α → Bool} :
    ∀ (l : List α) (x : α), (l.dropWhile p).head? = some x → p x = false := by
  intro l
  induction l with
  | nil => intro x h; simp [List.dropWhile] at h
  | cons a t ih =>
    intro x h
    by_cases hp : p a
    · rw [List.dropWhile_cons, if_pos hp] at h
      exact ih x h
    · rw [List.dropWhile_cons, if_neg hp] at h
      simp only [List.head?_cons, Option.some.injEq] at h
      subst h
      exact Bool.eq_false_iff.mpr hp

theorem filter_not_dropWhile {α : Type _} (p : α → Bool) :
    ∀ l : List α,
      (l.dropWhile p).filter (fun x => !p x) = l.filter (fun x => !p x) := by
  intro l
  induction l with
  | nil => rfl
  | cons a t ih =>
    by_cases hp : p a
    · rw [List.dropWhile_cons, if_pos hp, ih, List.filter_cons]
      simp [hp]
    · rw [List.dropWhile_cons, if_neg hp]

theorem range_map_getElem? {α : Type _} (f : ℕ → α) {n j : ℕ} (hj : j < n) :
    ((List.range n).map f)[j]? = some (f j) := by
  have hlen : j < ((List.range n).map f).length := by
    simpa [List.length_map, List.length_range] using hj
  rw [List.getElem?_eq_getElem hlen]
  simp [List.getElem_map, List.getElem_range]

theorem zip_getElem?_fst {α β : Type _} :
    ∀ (l : List α) (l' : List β) (j : ℕ) (x : α × β),
      (l.zip l')[j]? = some x → l[j]? = some x.1 := by
  intro l
  induction l with
  | nil => intro l' j x h; simp at h
  | cons a t ih =>
    intro l' j x h
    cases l' with
    | nil => simp at h
    | cons b t' =>
      cases j with
      | zero =>
        simp only [List.zip_cons_cons, List.getElem?_cons_zero,
          Option.some.injEq] at h
        subst h
        simp
      | succ k =>
        simp only [List.zip_cons_cons, List.getElem?_cons_succ] at h ⊢
        exact ih t' k x h

theorem zip_getElem?_of {α β : Type _} :
    ∀ (l : List α) (l' : List β) (j : ℕ) (a : α) (b : β),
      l[j]? = some a → l'[j]? = some b → (l.zip l')[j]? = some (a, b) := by
  intro l
  induction l with
  | nil => intro l' j a b h _; simp at h
  | cons x t ih =>
    intro l' j a b h h'
    cases l' with
    | nil => simp at h'
    | cons y t' =>
      cases j with
      | zero =>
        simp only [List.getElem?_cons_zero, Option.some.injEq] at h h'
        subst h; subst h'
        simp
      | succ k =>
        simp only [List.zip_cons_cons, List.getElem?_cons_succ] at h h' ⊢
        exact ih t' k a b h h'

/-! ## Claim C9 -/

/-- Claim C9: if a bound is non-positive, the upper bound does not
exceed the lower bound, or the step count is non-positive, then
`validate_parameters` raises a `ValueError`, but the calling cell
catches it and only prints a message, so the notebook continues with
the invalid parameters (the cell result is a printed message, never a
propagated exception). -/
theorem validate_parameters_error_is_caught (lb ub : ℚ) (n : ℤ)
    (h : lb ≤ 0 ∨ ub ≤ 0 ∨ ub ≤ lb ∨ n ≤ 0) :
    (∃ e, validate_parameters lb ub n = .error e) ∧
    (∃ msg, validationCell lb ub n = some msg) := by
  have herr : ∃ e, validate_parameters lb ub n = .error e := by
    unfold validate_parameters
    split_ifs with h1 h2 h3 h4
    · exact ⟨_, rfl⟩
    · exact ⟨_, rfl⟩
    · exact ⟨_, rfl⟩
    · exact ⟨_, rfl⟩
    · tauto
  obtain ⟨e, he⟩ := herr
  refine ⟨⟨e, he⟩, ⟨"Parameter validation error: " ++ e, ?_⟩⟩
  unfold validationCell
  rw [he]

/-- Witness for C9 at lower bound 0: the cell prints a message and the
validation result is not a success. -/
theorem validate_parameters_error_is_caught_witness :
    (validationCell 0 1 5).isSome = true ∧
    validate_parameters 0 1 5 ≠ .ok () := by
  obtain ⟨⟨e, he⟩, msg, hmsg⟩ :=
    validate_parameters_error_is_caught 0 1 5 (Or.inl le_rfl)
  constructor
  · rw [hmsg]
    rfl
  · rw [he]
    exact fun hcontra => Except.noConfusion hcontra

/-! ## Claim C4 -/

/-- Counterexample to C4 as stated: a log whose last non-blank line
begins with the success marker but which ends in one extra blank line
is judged a failure by the code, because the code inspects the literal
last line, not the last non-blank line. -/
theorem checkTermination_counterexample :
    checkTermination ["Normal termination of Gaussian 16\n", "\n"] = false ∧
    claimTerminationSuccess ["Normal termination of Gaussian 16\n", "\n"] = true :=
  ⟨rfl, rfl⟩

/-- Claim C4 (amended): the run is judged successful if and only if the
log is non-empty and its literal last line, stripped, begins with
"Normal termination"; in every other case the cell raises an
engine-failure error. -/
theorem checkTermination_spec (lines : List String) :
    checkTermination lines = true ↔
      ∃ l, lines.getLast? = some l ∧
        pyStartsWith (pyStrip l) successMarker = true := by
  cases h : lines.getLast? with
  | none =>
    rw [List.getLast?_eq_none_iff] at h
    subst h
    simp [checkTermination]
  | some l =>
    have hne : lines ≠ [] := by
      intro hnil
      subst hnil
      simp at h
    unfold checkTermination
    rw [List.getLastD_eq_getLast?, h]
    simp [hne]

/-- Witness for C4 (amended): a log ending directly in the marker line
is accepted. -/
theorem checkTermination_spec_witness :
    checkTermination ["Normal termination of Gaussian 16\n"] = true :=
  (checkTermination_spec _).mpr ⟨"Normal termination of Gaussian 16\n", rfl, rfl⟩

/-! ## Claim C2 -/

/-- Counterexample to C2 as stated: with step count 1 and an empty
energy sequence the output file has zero rows, not 1 + 1: the zip with
the energy list silently truncates the distance column. -/
theorem write_energies_truncation_counterexample :
    (write_energies_to_file [] 1 1 1).length ≠ 1 + 1 := by decide

/-- Claim C2 (amended): the output of `write_energies_to_file` has
exactly `min (N+1) (number of energies)` rows; row `i` carries distance
`minimum + i * step_size` and the `i`-th energy.  Only when at least
`N+1` energies were found does the distance column have the full `N+1`
entries; with fewer energies the output is silently truncated. -/
theorem write_energies_to_file_spec (energies : List ℚ) (m s : ℚ) (n : ℕ) :
    (write_energies_to_file energies m s n).length = min (n + 1) energies.length ∧
    ∀ (j : ℕ) (e : ℚ), energies[j]? = some e → j < n + 1 →
      (write_energies_to_file energies m s n)[j]? =
        some (m + (j : ℚ) * s, e) := by
  constructor
  · unfold write_energies_to_file
    rw [List.length_zip, List.length_map, List.length_range]
  · intro j e he hj
    unfold write_energies_to_file
    exact zip_getElem?_of _ _ _ _ _ (range_map_getElem? _ hj) he

/-- Witness for C2 (amended) with two energies and step count 3,
instantiated at row index 1. -/
theorem write_energies_to_file_spec_witness :
    (write_energies_to_file [4, 5] 1 2 3).length =
      min (3 + 1) ([4, 5] : List ℚ).length ∧
    (write_energies_to_file [4, 5] 1 2 3)[1]? =
      some (1 + ((1 : ℕ) : ℚ) * 2, (5 : ℚ)) :=
  ⟨(write_energies_to_file_spec [4, 5] 1 2 3).1,
   (write_energies_to_file_spec [4, 5] 1 2 3).2 1 5 rfl (by omega)⟩

/-! ## Claim C3 -/

theorem firstIdxWhere_cons {α : Type _} (p : α → Bool) (x : α) (xs : List α) :
    firstIdxWhere p (x :: xs) =
      if p x then some 0 else (firstIdxWhere p xs).map (· + 1) := rfl

theorem update_scan_bond_cons (scan_bond : String) (lb ub : ℚ) (n : ℕ)
    (line : String) (rest : List String) :
    update_scan_bond scan_bond lb ub n (line :: rest) =
      if scanBondMatch scan_bond line then
        match pyFloat ((pySplit line).getD 1 "") with
        | some eq =>
          .ok (mkScanLine scan_bond (eq * lb) n
              ((eq * ub - eq * lb) / (n : ℚ)) :: rest,
            eq * lb, (eq * ub - eq * lb) / (n : ℚ))
        | none => .error .floatParseError
      else
        match update_scan_bond scan_bond lb ub n rest with
        | .ok (ls, m, s) => .ok (line :: ls, m, s)
        | .error e => .error e := rfl

/-- Counterexample to C3 as stated: with coordinate name B4, the deck
line " B41   1.5" is rewritten by the code and the call succeeds,
although the stripped line does not start with the name followed by a
space, so under the claim no line matches and the call would have to
fail with a coordinate-not-found error.  A coordinate name that is a
proper initial segment of another coordinate name does match the
longer line. -/
theorem update_scan_bond_counterexample :
    update_scan_bond "B4" (7/10) (7/4) 105 [" B41   1.5\n"] =
      .ok ([mkScanLine "B4" (21/20) 105 (3/200)], 21/20, 3/200) ∧
    claimC3Match "B4" " B41   1.5\n" = false := by
  constructor
  · rw [show update_scan_bond "B4" (7/10) (7/4) 105 [" B41   1.5\n"] =
      .ok ([mkScanLine "B4"
          (((1 : ℚ) * (((1 : ℕ) : ℚ) + ((5 : ℕ) : ℚ) / (10 : ℚ) ^ (1 : ℕ))) * (7/10))
          105
          ((((1 : ℚ) * (((1 : ℕ) : ℚ) + ((5 : ℕ) : ℚ) / (10 : ℚ) ^ (1 : ℕ))) * (7/4) -
              ((1 : ℚ) * (((1 : ℕ) : ℚ) + ((5 : ℕ) : ℚ) / (10 : ℚ) ^ (1 : ℕ))) * (7/10)) /
            (105 : ℚ))],
        ((1 : ℚ) * (((1 : ℕ) : ℚ) + ((5 : ℕ) : ℚ) / (10 : ℚ) ^ (1 : ℕ))) * (7/10),
        (((1 : ℚ) * (((1 : ℕ) : ℚ) + ((5 : ℕ) : ℚ) / (10 : ℚ) ^ (1 : ℕ))) * (7/4) -
            ((1 : ℚ) * (((1 : ℕ) : ℚ) + ((5 : ℕ) : ℚ) / (10 : ℚ) ^ (1 : ℕ))) * (7/10)) /
          (105 : ℚ)) from rfl]
    norm_num
  · rfl

/-- Claim C3 (amended): `update_scan_bond` rewrites the first line
whose stripped text starts with the coordinate name (a following space
is not required, so a longer coordinate name having this name as an
initial segment is also matched) and which splits into exactly two
whitespace tokens; the second token is parsed as the equilibrium
distance, a non-numeric second token being an uncaught float
`ValueError`; if no line matches, the call raises the
coordinate-not-found `ValueError`.  The rewrite runs after the
optimization engine run and before the scan engine run. -/
theorem update_scan_bond_spec (scan_bond : String) (lb ub : ℚ) (n : ℕ)
    (lines : List String) :
    (firstIdxWhere (scanBondMatch scan_bond) lines = none →
      update_scan_bond scan_bond lb ub n lines = .error .coordNotFound) ∧
    (∀ i, firstIdxWhere (scanBondMatch scan_bond) lines = some i →
      (∀ eq, pyFloat ((pySplit (lines.getD i "")).getD 1 "") = some eq →
        update_scan_bond scan_bond lb ub n lines =
          .ok (lines.take i ++
              mkScanLine scan_bond (eq * lb) n
                ((eq * ub - eq * lb) / (n : ℚ)) :: lines.drop (i + 1),
            eq * lb, (eq * ub - eq * lb) / (n : ℚ))) ∧
      (pyFloat ((pySplit (lines.getD i "")).getD 1 "") = none →
        update_scan_bond scan_bond lb ub n lines = .error .floatParseError)) := by
  induction lines with
  | nil =>
    refine ⟨fun _ => rfl, fun i hi => ?_⟩
    simp [firstIdxWhere] at hi
  | cons line rest ih =>
    by_cases hm : scanBondMatch scan_bond line
    · have hfirst : firstIdxWhere (scanBondMatch scan_bond) (line :: rest) =
          some 0 := by
        rw [firstIdxWhere_cons, if_pos hm]
      refine ⟨fun hnone => ?_, fun i hi => ?_⟩
      · rw [hfirst] at hnone
        exact Option.noConfusion hnone
      · rw [hfirst, Option.some.injEq] at hi
        subst hi
        constructor
        · intro eq heq
          simp only [List.getD_cons_zero] at heq
          rw [update_scan_bond_cons, if_pos hm, heq]
          rfl
        · intro heq
          simp only [List.getD_cons_zero] at heq
          rw [update_scan_bond_cons, if_pos hm, heq]
    · have hfirst : firstIdxWhere (scanBondMatch scan_bond) (line :: rest) =
          (firstIdxWhere (scanBondMatch scan_bond) rest).map (· + 1) := by
        rw [firstIdxWhere_cons, if_neg hm]
      refine ⟨fun hnone => ?_, fun i hi => ?_⟩
      · rw [hfirst] at hnone
        have hrest : firstIdxWhere (scanBondMatch scan_bond) rest = none := by
          cases h : firstIdxWhere (scanBondMatch scan_bond) rest with
          | none => rfl
          | some k => rw [h] at hnone; exact Option.noConfusion hnone
        rw [update_scan_bond_cons, if_neg hm, ih.1 hrest]
      · rw [hfirst] at hi
        cases h : firstIdxWhere (scanBondMatch scan_bond) rest with
        | none => rw [h] at hi; exact Option.noConfusion hi
        | some k =>
          rw [h] at hi
          simp only [Option.map_some', Option.some.injEq] at hi
          subst hi
          have hk := ih.2 k h
          constructor
          · intro eq heq
            simp only [List.getD_cons_succ] at heq
            rw [update_scan_bond_cons, if_neg hm, hk.1 eq heq]
            rfl
          · intro heq
            simp only [List.getD_cons_succ] at heq
            rw [update_scan_bond_cons, if_neg hm, hk.2 heq]

/-- Witness for C3 (amended): the deck line " B4   1.4" is found at
index 0 and rewritten with equilibrium distance 1.4. -/
theorem update_scan_bond_spec_witness :
    update_scan_bond "B4" (7/10) (7/4) 105 [" B4   1.4\n"] =
      .ok (([" B4   1.4\n"] : List String).take 0 ++
          mkScanLine "B4" ((7/5 : ℚ) * (7/10)) 105
            (((7/5 : ℚ) * (7/4) - (7/5 : ℚ) * (7/10)) / (105 : ℚ)) ::
          ([" B4   1.4\n"] : List String).drop 1,
        (7/5 : ℚ) * (7/10),
        ((7/5 : ℚ) * (7/4) - (7/5 : ℚ) * (7/10)) / (105 : ℚ)) :=
  ((update_scan_bond_spec "B4" (7/10) (7/4) 105 [" B4   1.4\n"]).2 0 rfl).1
    (7/5)
    (by
      rw [show pyFloat ((pySplit (([" B4   1.4\n"] : List String).getD 0 "")).getD 1 "") =
        some ((1 : ℚ) * (((1 : ℕ) : ℚ) + ((4 : ℕ) : ℚ) / (10 : ℚ) ^ (1 : ℕ)))
        from rfl]
      norm_num)

/-! ## Claim C1 -/

theorem getElem?_isSome_lt {α : Type _} :
    ∀ (l : List α) (j : ℕ) (x : α), l[j]? = some x → j < l.length := by
  intro l
  induction l with
  | nil => intro j x h; simp at h
  | cons a t ih =>
    intro j x h
    cases j with
    | zero => simp
    | succ k =>
      simp only [List.getElem?_cons_succ] at h
      have := ih k x h
      simpa [Nat.succ_lt_succ] using this

/-- Claim C1: on every successful `update_scan_bond` run, the rewritten
deck contains the scan directive line built from the returned pair of
minimum distance and step size, and `write_energies_to_file`, called
with that same pair as the orchestration cell does, labels every
written row `j` with distance `minimum_dist + j * step_size`: deck line
and energy file use the one pair. -/
theorem scan_pair_threading (scan_bond : String) (lb ub : ℚ) (n : ℕ)
    (lines lines' : List String) (m s : ℚ) (energies : List ℚ)
    (h : update_scan_bond scan_bond lb ub n lines = .ok (lines', m, s)) :
    (∃ i : ℕ, lines'[i]? = some (mkScanLine scan_bond m n s)) ∧
    ∀ (j : ℕ) (p : ℚ × ℚ),
      (write_energies_to_file energies m s n)[j]? = some p →
      p.1 = m + (j : ℚ) * s := by
  constructor
  · induction lines generalizing lines' with
    | nil => exact Except.noConfusion h
    | cons line rest ih =>
      rw [update_scan_bond_cons] at h
      by_cases hm : scanBondMatch scan_bond line
      · rw [if_pos hm] at h
        cases hf : pyFloat ((pySplit line).getD 1 "") with
        | none =>
          rw [hf] at h
          exact absurd h (by simp)
        | some eq =>
          rw [hf] at h
          have h2 : (Except.ok (mkScanLine scan_bond (eq * lb) n
                ((eq * ub - eq * lb) / (n : ℚ)) :: rest,
                eq * lb, (eq * ub - eq * lb) / (n : ℚ)) :
              Except UpdateError (List String × ℚ × ℚ)) = .ok (lines', m, s) := h
          simp only [Except.ok.injEq, Prod.mk.injEq] at h2
          obtain ⟨h3, h4, h5⟩ := h2
          subst h3
          refine ⟨0, ?_⟩
          simp only [List.getElem?_cons_zero, Option.some.injEq]
          rw [h5, h4]
      · rw [if_neg hm] at h
        cases hrec : update_scan_bond scan_bond lb ub n rest with
        | error e =>
          rw [hrec] at h
          exact absurd h (by simp)
        | ok v =>
          obtain ⟨ls, m2, s2⟩ := v
          rw [hrec] at h
          have h2 : (Except.ok (line :: ls, m2, s2) :
              Except UpdateError (List String × ℚ × ℚ)) = .ok (lines', m, s) := h
          simp only [Except.ok.injEq, Prod.mk.injEq] at h2
          obtain ⟨h3, h4, h5⟩ := h2
          subst h4
          subst h5
          obtain ⟨i, hi⟩ := ih ls hrec
          refine ⟨i + 1, ?_⟩
          rw [← h3]
          simpa using hi
  · intro j p hp
    unfold write_energies_to_file at hp
    have hfst := zip_getElem?_fst _ _ _ _ hp
    have hjlt : j < n + 1 := by
      have := getElem?_isSome_lt _ _ _ hfst
      simpa [List.length_map, List.length_range] using this
    rw [range_map_getElem? _ hjlt] at hfst
    exact (Option.some.inj hfst).symm

/-- Witness for C1 at the deck line " B4   1.4" with one energy,
instantiated at row 0 of the energy file. -/
theorem scan_pair_threading_witness :
    (∃ i : ℕ, ([mkScanLine "B4" (49/50) 105 (7/500)] : List String)[i]? =
      some (mkScanLine "B4" (49/50) 105 (7/500))) ∧
    ((49/50 : ℚ), (-2 : ℚ)).1 = 49/50 + ((0 : ℕ) : ℚ) * (7/500) := by
  have h := scan_pair_threading "B4" (7/10) (7/4) 105 [" B4   1.4\n"]
    [mkScanLine "B4" (49/50) 105 (7/500)] (49/50) (7/500) [(-2 : ℚ)]
    (by
      rw [show update_scan_bond "B4" (7/10) (7/4) 105 [" B4   1.4\n"] =
        .ok ([mkScanLine "B4"
            (((1 : ℚ) * (((1 : ℕ) : ℚ) + ((4 : ℕ) : ℚ) / (10 : ℚ) ^ (1 : ℕ))) * (7/10))
            105
            ((((1 : ℚ) * (((1 : ℕ) : ℚ) + ((4 : ℕ) : ℚ) / (10 : ℚ) ^ (1 : ℕ))) * (7/4) -
                ((1 : ℚ) * (((1 : ℕ) : ℚ) + ((4 : ℕ) : ℚ) / (10 : ℚ) ^ (1 : ℕ))) * (7/10)) /
              (105 : ℚ))],
          ((1 : ℚ) * (((1 : ℕ) : ℚ) + ((4 : ℕ) : ℚ) / (10 : ℚ) ^ (1 : ℕ))) * (7/10),
          (((1 : ℚ) * (((1 : ℕ) : ℚ) + ((4 : ℕ) : ℚ) / (10 : ℚ) ^ (1 : ℕ))) * (7/4) -
              ((1 : ℚ) * (((1 : ℕ) : ℚ) + ((4 : ℕ) : ℚ) / (10 : ℚ) ^ (1 : ℕ))) * (7/10)) /
            (105 : ℚ)) from rfl]
      norm_num)
  exact ⟨h.1, h.2 0 ((49/50 : ℚ), (-2 : ℚ)) (by
    rw [show (write_energies_to_file [(-2 : ℚ)] (49/50) (7/500) 105)[0]? =
      some (49/50 + ((0 : ℕ) : ℚ) * (7/500), (-2 : ℚ)) from rfl]
    norm_num)⟩

/-! ## Claim C5 -/

theorem extractGeomLoop_eq (l : List String) :
    extractGeomLoop l =
      (l.takeWhile fun x => !startsWithDigit (pyStrip x)).map transformZLine := by
  induction l with
  | nil => rfl
  | cons a t ih =>
    by_cases h : startsWithDigit (pyStrip a)
    · unfold extractGeomLoop
      rw [if_pos h, List.takeWhile_cons]
      simp [h]
    · unfold extractGeomLoop
      rw [if_neg h, List.takeWhile_cons]
      simp [h, ih]

/-- Counterexample to C5 as stated: the copied line " Variables" does
contain the word Variables but is not replaced by a blank line, because
the code tests for the colon-bearing text. -/
theorem extract_optimized_structure_counterexample :
    extract_optimized_structure
      ["Final structure in terms of initial Z-matrix:\n", " Variables\n"] =
      .ok [" Variables\n"] ∧
    pyIn "Variables" " Variables\n" = true ∧ " Variables\n" ≠ "\n" := by
  refine ⟨rfl, rfl, ?_⟩
  decide

/-- Claim C5 (amended): when no line contains the marker, the scan deck
composition aborts with the structure-not-found error; when the marker
is first found at index `i`, the extractor copies the lines after it up
to the first line whose stripped text begins with a digit, each copied
line transformed by `transformZLine`; and a copied line containing
"Variables:" (with the colon) becomes a single blank line.  Other
copied lines have each comma and each equals sign replaced by three
spaces. -/
theorem extract_optimized_structure_spec (lines : List String) :
    ((∀ l ∈ lines, pyIn zmatrixMarker l = false) →
      ∀ header chargeLine basisset,
        composeScanDeck header chargeLine basisset lines =
          .error "Error: Could not find the start of the geometry block.") ∧
    (∀ i, firstIdxWhere (fun l => pyIn zmatrixMarker l) lines = some i →
      extract_optimized_structure lines =
        .ok (((lines.drop (i + 1)).takeWhile
            (fun l => !startsWithDigit (pyStrip l))).map transformZLine)) ∧
    (∀ l, pyIn "Variables:" l = true → transformZLine l = "\n") := by
  refine ⟨?_, ?_, ?_⟩
  · intro hall header chargeLine basisset
    have hnone := firstIdxWhere_eq_none hall
    unfold composeScanDeck extract_optimized_structure
    rw [hnone]
  · intro i hi
    unfold extract_optimized_structure
    rw [hi]
    show Except.ok (extractGeomLoop (lines.drop (i + 1))) = _
    rw [extractGeomLoop_eq]
  · intro l hl
    unfold transformZLine
    simp [hl]

/-- Witness for C5 (amended): a small log with the marker at index 0,
one geometry line and one numeric summary line. -/
theorem extract_optimized_structure_spec_witness :
    extract_optimized_structure
      ["Final structure in terms of initial Z-matrix:\n", "H,1,B1\n", " 1  2\n"] =
      .ok ((((["Final structure in terms of initial Z-matrix:\n", "H,1,B1\n",
          " 1  2\n"] : List String).drop (0 + 1)).takeWhile
          (fun l => !startsWithDigit (pyStrip l))).map transformZLine) :=
  (extract_optimized_structure_spec _).2.1 0 rfl

/-! ## Claim C7 -/

theorem dropWhile_all_of_nil {α : Type _} {p : α → Bool} :
    ∀ {l : List α}, l.dropWhile p = [] → ∀ x ∈ l, p x = true := by
  intro l
  induction l with
  | nil => intro _ x hx; exact absurd hx (List.not_mem_nil x)
  | cons a t ih =>
    intro h x hx
    by_cases hp : p a
    · rw [List.dropWhile_cons, if_pos hp] at h
      rcases List.mem_cons.mp hx with rfl | hx2
      · exact hp
      · exact ih h x hx2
    · rw [List.dropWhile_cons, if_neg hp] at h
      exact List.noConfusion h

theorem dropWhile_decomp {α : Type _} {p : α → Bool} {l : List α} {y : α}
    (hy : y ∈ l) (hpy : p y = false) :
    ∃ x xs, l.dropWhile p = x :: xs ∧ p x = false := by
  cases hb : l.dropWhile p with
  | nil =>
    exact absurd (dropWhile_all_of_nil hb y hy) (by simp [hpy])
  | cons x xs =>
    exact ⟨x, xs, rfl, dropWhile_head?_not l x (by rw [hb]; rfl)⟩

theorem dropWhile_getLast? {α : Type _} {p : α → Bool} :
    ∀ (l : List α), l.dropWhile p ≠ [] → (l.dropWhile p).getLast? = l.getLast? := by
  intro l
  induction l with
  | nil => intro h; exact absurd rfl h
  | cons a t ih =>
    intro h
    by_cases hp : p a
    · rw [List.dropWhile_cons, if_pos hp] at h ⊢
      cases t with
      | nil => simp [List.dropWhile] at h
      | cons b u =>
        rw [ih h, List.getLast?_cons_cons]
    · rw [List.dropWhile_cons, if_neg hp]

/-- Counterexample to C7 as stated: a basis-set file consisting of one
blank line yields an output of two blank lines, so the output does not
have exactly one blank line at each end. -/
theorem read_basis_set_counterexample :
    ¬(((read_basis_set ["\n"]).takeWhile isBlankLine).length = 1 ∧
      ((read_basis_set ["\n"]).reverse.takeWhile isBlankLine).length = 1) := by
  decide

/-- Claim C7 (amended): for every basis-set file containing at least
one non-blank line, the output of `read_basis_set` has exactly one
blank line at its start and exactly one at its end, and its non-blank
lines are exactly those of the input, in order.  (A file of only blank
lines instead yields exactly two blank lines.) -/
theorem read_basis_set_spec (basisset : List String)
    (h : ∃ l ∈ basisset, isBlankLine l = false) :
    ((read_basis_set basisset).takeWhile isBlankLine).length = 1 ∧
    ((read_basis_set basisset).reverse.takeWhile isBlankLine).length = 1 ∧
    (read_basis_set basisset).filter (fun l => !isBlankLine l) =
      basisset.filter (fun l => !isBlankLine l) := by
  obtain ⟨l0, hl0mem, hl0⟩ := h
  obtain ⟨x, xs, hb1, hx⟩ := dropWhile_decomp hl0mem hl0
  have hxrev : x ∈ (x :: xs).reverse := by
    rw [List.mem_reverse]
    exact List.mem_cons_self x xs
  obtain ⟨z, zs, hS, hz⟩ := dropWhile_decomp hxrev hx
  have hSne : (x :: xs).reverse.dropWhile isBlankLine ≠ [] := by
    rw [hS]
    exact List.cons_ne_nil z zs
  have hSlast : ((x :: xs).reverse.dropWhile isBlankLine).getLast? =
      (x :: xs).reverse.getLast? := dropWhile_getLast? _ hSne
  have hb2head : (((x :: xs).reverse.dropWhile isBlankLine).reverse).head? =
      some x := by
    rw [List.head?_reverse, hSlast, List.getLast?_reverse]
    rfl
  obtain ⟨y, ys, hb2⟩ :
      ∃ y ys, ((x :: xs).reverse.dropWhile isBlankLine).reverse = y :: ys := by
    cases hc : ((x :: xs).reverse.dropWhile isBlankLine).reverse with
    | nil => rw [hc] at hb2head; exact Option.noConfusion hb2head
    | cons y ys => exact ⟨y, ys, rfl⟩
  have hyx : y = x := by
    rw [hb2] at hb2head
    exact Option.some.inj hb2head
  subst hyx
  have hblanknl : isBlankLine "\n" = true := rfl
  refine ⟨?_, ?_, ?_⟩
  · show (List.takeWhile isBlankLine
        ("\n" :: (((basisset.dropWhile isBlankLine).reverse.dropWhile
          isBlankLine).reverse ++ ["\n"]))).length = 1
    rw [hb1, hb2, List.takeWhile_cons, if_pos hblanknl, List.cons_append,
      List.takeWhile_cons, if_neg (by simp [hx])]
    rfl
  · show (List.takeWhile isBlankLine
        ("\n" :: (((basisset.dropWhile isBlankLine).reverse.dropWhile
          isBlankLine).reverse ++ ["\n"])).reverse).length = 1
    rw [hb1, hS]
    simp only [List.reverse_cons, List.reverse_append, List.reverse_reverse,
      List.reverse_nil, List.nil_append, List.cons_append, List.append_assoc]
    rw [List.takeWhile_cons, if_pos hblanknl]
    rw [List.takeWhile_cons, if_neg (by simp [hz])]
    rfl
  · show (("\n" :: (((basisset.dropWhile isBlankLine).reverse.dropWhile
        isBlankLine).reverse ++ ["\n"])).filter fun s => !isBlankLine s) =
      basisset.filter fun s => !isBlankLine s
    rw [List.filter_cons, List.filter_append]
    simp only [hblanknl, Bool.not_true, Bool.false_eq_true, if_false,
      List.filter_cons, List.filter_nil, List.append_nil]
    rw [List.filter_reverse, filter_not_dropWhile, List.filter_reverse,
      List.reverse_reverse, filter_not_dropWhile]

/-- Witness for C7 (amended) at a one-line basis-set file. -/
theorem read_basis_set_spec_witness :
    ((read_basis_set ["x\n"]).takeWhile isBlankLine).length = 1 ∧
    ((read_basis_set ["x\n"]).reverse.takeWhile isBlankLine).length = 1 ∧
    (read_basis_set ["x\n"]).filter (fun l => !isBlankLine l) =
      (["x\n"] : List String).filter (fun l => !isBlankLine l) :=
  read_basis_set_spec ["x\n"] ⟨"x\n", by simp, by decide⟩

/-! ## Claim C8 -/

theorem extract_energies_cons (l : String) (rest : List String) :
    extract_energies (l :: rest) =
      if pyIn "EUMP2" l then
        match reSearchEUMP2 l.data with
        | some payload =>
          match pyFloat (String.mk (payload.map dToE)) with
          | some v =>
            (v * hartree_to_eV :: (extract_energies rest).1,
              (extract_energies rest).2)
          | none =>
            ((extract_energies rest).1,
              ("Error converting energy: " ++ String.mk (payload.map dToE)) ::
                (extract_energies rest).2)
        | none => extract_energies rest
      else extract_energies rest := rfl

/-- Claim C8: the energy list returned by `extract_energies` consists
of exactly the successfully parsed EUMP2 values in log order, and every
line whose captured payload fails float parsing contributes exactly one
printed error message and no energy, the scan continuing over the
remaining lines instead of aborting. -/
theorem extract_energies_spec (lines : List String) :
    (extract_energies lines).1 = lines.filterMap energyOfLine ∧
    (extract_energies lines).2 = lines.filterMap errorOfLine := by
  induction lines with
  | nil => exact ⟨rfl, rfl⟩
  | cons l rest ih =>
    rw [extract_energies_cons]
    simp only [List.filterMap_cons]
    by_cases h1 : pyIn "EUMP2" l
    · rw [if_pos h1]
      cases h2 : reSearchEUMP2 l.data with
      | none =>
        simp only [energyOfLine, errorOfLine, h1, if_true, h2,
          Option.none_bind]
        exact ih
      | some payload =>
        cases h3 : pyFloat (String.mk (payload.map dToE)) with
        | none =>
          simp only [energyOfLine, errorOfLine, h1, if_true, h2, h3,
            Option.some_bind, Option.map_none']
          exact ⟨ih.1, by simp [ih.2]⟩
        | some v =>
          simp only [energyOfLine, errorOfLine, h1, if_true, h2, h3,
            Option.some_bind, Option.map_some']
          exact ⟨by simp [ih.1], ih.2⟩
    · rw [if_neg h1]
      have he : energyOfLine l = none := by
        unfold energyOfLine
        rw [if_neg h1]
      have hr : errorOfLine l = none := by
        unfold errorOfLine
        rw [if_neg h1]
      rw [he, hr]
      exact ih

/-! ## Claim C10 -/

theorem gatherBlocks_ok_nonempty (lines : List String) :
    ∀ (idxs : List ℕ) (blocks : List (List String)),
      gatherBlocks lines idxs = .ok blocks → ∀ b ∈ blocks, b ≠ [] := by
  intro idxs
  induction idxs with
  | nil =>
    intro blocks h b hb
    have h2 : (Except.ok ([] : List (List String)) :
        Except String (List (List String))) = .ok blocks := h
    obtain rfl : blocks = [] := (Except.ok.inj h2).symm
    exact absurd hb (List.not_mem_nil b)
  | cons i is ih =>
    intro blocks h b hb
    unfold gatherBlocks at h
    cases hbl : blockLoop (lines.drop (i + 5)) with
    | error e =>
      rw [hbl] at h
      exact absurd h (by simp)
    | ok bd =>
      rw [hbl] at h
      have h2 : (match gatherBlocks lines is with
          | .error e => (.error e : Except String (List (List String)))
          | .ok bs => .ok (if bd.isEmpty then bs else bd :: bs)) =
          .ok blocks := h
      cases hg : gatherBlocks lines is with
      | error e =>
        rw [hg] at h2
        exact absurd h2 (by simp)
      | ok bs =>
        rw [hg] at h2
        have h3 : (Except.ok (if bd.isEmpty then bs else bd :: bs) :
            Except String (List (List String))) = .ok blocks := h2
        obtain rfl : blocks = if bd.isEmpty then bs else bd :: bs :=
          (Except.ok.inj h3).symm
        by_cases hbd : bd.isEmpty
        · rw [if_pos hbd] at hb
          exact ih bs hg b hb
        · rw [if_neg hbd] at hb
          rcases List.mem_cons.mp hb with rfl | hb2
          · exact fun hnil => hbd (by rw [hnil]; rfl)
          · exact ih bs hg b hb2

/-- Claim C10: the inner table loop of `extract_data_from_log` skips
every data line with fewer than six whitespace fields, and on every
successful extraction each emitted block holds at least one atom
record, so the output file never contains a block whose atom-count
line is zero. -/
theorem extract_data_from_log_spec :
    (∀ l rest, pyStartsWith (pyStrip l) "-" = false → (pySplit l).length < 6 →
      blockLoop (l :: rest) = blockLoop rest) ∧
    (∀ lines blocks, extract_data_from_log lines = .ok blocks →
      ∀ b ∈ blocks, b.length ≠ 0) := by
  constructor
  · intro l rest hdash hshort
    unfold blockLoop
    rw [if_neg (by simp [hdash]), if_neg (by omega)]
    cases rest with
    | nil => rfl
    | cons x t => rfl
  · intro lines blocks h b hb
    have hne : b ≠ [] :=
      gatherBlocks_ok_nonempty lines (markerIndices lines) blocks h b hb
    exact fun h0 => hne (List.length_eq_zero.mp h0)

/-- Witness for C10 at a log with one orientation table holding one
well-formed data line, one short line and the closing dash line. -/
theorem extract_data_from_log_spec_witness :
    (["H 0.0 0.0 0.74"] : List String).length ≠ 0 :=
  extract_data_from_log_spec.2
    ["Standard orientation:", "h", "h", "h", "h",
      "  1  1  0  0.0  0.0  0.74", " ---"]
    [["H 0.0 0.0 0.74"]] rfl ["H 0.0 0.0 0.74"]
    (List.mem_singleton.mpr rfl)
